import Mathlib

/-!
Verification of the anonymous-chat pairing server.

The embedding below is a shallow model of `src/unnamed/part_000` (the live
variant of the server: FIFO matching queue, symmetric partner map, set-based
report votes, temporary bans, pending media offers).  The `next` handler,
which is present only in `src/server.js` (lines 99-111), is embedded from
there.  JavaScript `Map`s are modelled as association lists with
`Map.set` / `Map.get` / `Map.delete` / `Map.has` semantics; socket ids and
identities are strings, timestamps are naturals (milliseconds), and every
`socket.emit` / `io.to(id).emit` is recorded in an output trace.
-/

namespace AnonChat

/-- One emitted socket event: the connection id it is sent to, the event
name, and an optional string payload (message text or media data url). -/
structure Emit where
  target : String
  event : String
  payload : Option String
deriving Repr, DecidableEq

/-- A stored pending media offer: `{ fromSocketId, dataUrl }`. -/
structure MediaReq where
  fromSocketId : String
  dataUrl : String
deriving Repr, DecidableEq

/-- JavaScript `Map.prototype.get`: the value at the first entry whose key
matches, if any. -/
def mget {β : Type} (m : List (String × β)) (k : String) : Option β :=
  (m.find? (fun e => e.1 == k)).map (fun e => e.2)

/-- JavaScript `Map.prototype.set`: replace the entry in place when the key
is present, append otherwise. -/
def mset {β : Type} (m : List (String × β)) (k : String) (v : β) :
    List (String × β) :=
  if m.any (fun e => e.1 == k) then
    m.map (fun e => if e.1 == k then (k, v) else e)
  else m ++ [(k, v)]

/-- JavaScript `Map.prototype.delete`: drop every entry with the key. -/
def mdel {β : Type} (m : List (String × β)) (k : String) : List (String × β) :=
  m.filter (fun e => !(e.1 == k))

/-- JavaScript `Map.prototype.has`. -/
def mhas {β : Type} (m : List (String × β)) (k : String) : Bool :=
  m.any (fun e => e.1 == k)

/-- JavaScript falsiness of a string value: only the empty string is falsy. -/
def strFalsy (s : String) : Bool := s == ""

/-- `String.prototype.startsWith`, modelled on the character list. -/
def strStarts (s p : String) : Bool := p.data.isPrefixOf s.data

/-- `String.prototype.trim`: strip leading and trailing whitespace. -/
def jsTrim (s : String) : String :=
  String.mk (((s.data.dropWhile Char.isWhitespace).reverse.dropWhile
    Char.isWhitespace).reverse)

/-- `makeIdent` (part_000 lines 28-32): `ip + "::" + userAgent.slice(0,160)`. -/
def makeIdent (ip ua : String) : String :=
  ip ++ "::" ++ String.mk (ua.data.take 160)

/-- `pair(a, b)` (part_000 lines 35-38): two symmetric `Map.set`s. -/
def pair (m : List (String × String)) (a b : String) :
    List (String × String) :=
  mset (mset m a b) b a

/-- `unpair(a)` (part_000 lines 39-43): `const b = partners.get(a);
if (b) partners.delete(b); partners.delete(a);` — the inner delete is
skipped when `b` is absent or falsy. -/
def unpair (m : List (String × String)) (a : String) :
    List (String × String) :=
  let m1 := match mget m a with
    | some b => if strFalsy b then m else mdel m b
    | none => m
  mdel m1 a

/-- `REPORT_THRESHOLD` (part_000 line 46). -/
def REPORT_THRESHOLD : Nat := 10

/-- `BAN_MS` (part_000 line 47): 24 hours in milliseconds. -/
def BAN_MS : Nat := 24 * 60 * 60 * 1000

/-- `isTemporarilyBanned(ident)` (part_000 lines 55-60).  Reads the ban
table and lazily purges an expired entry; returns the verdict together with
the updated table. -/
def isTemporarilyBanned (bans : List (String × Nat)) (ident : String)
    (now : Nat) : Bool × List (String × Nat) :=
  let untilTs := (mget bans ident).getD 0
  if now < untilTs then (true, bans)
  else if untilTs ≠ 0 then (false, mdel bans ident)
  else (false, bans)

/-- The `while (queue.length)` loop of the `find` handler (part_000 lines
109-119): shift entries off the front, discarding falsy entries, the caller
itself and already-paired entries, until an eligible partner is found;
return it with the remaining queue.  `none` means the loop consumed the
whole queue without a match. -/
def findLoop (sid : String) (m : List (String × String)) :
    List String → Option (String × List String)
  | [] => none
  | other :: rest =>
    if strFalsy other then findLoop sid m rest
    else if other == sid then findLoop sid m rest
    else if mhas m other then findLoop sid m rest
    else some (other, rest)

/-- The whole mutable server state (part_000 lines 14-64): connected
sockets, matching queue, partner registry, identity table, per-socket
consent flags, report votes, temporary bans and the two pending-media
maps. -/
structure ServerState where
  connected : List String
  queue : List String
  partners : List (String × String)
  identBySocket : List (String × String)
  agreed : List String
  reportVotes : List (String × List String)
  tempBans : List (String × Nat)
  pendingPhotos : List (String × MediaReq)
  pendingVideos : List (String × MediaReq)
deriving Repr, DecidableEq

/-- The state at process start: every collection empty. -/
def initState : ServerState := ⟨[], [], [], [], [], [], [], [], []⟩

/-- A `message` payload as seen by the handler: either a JS string or some
non-string value (rejected by the `typeof msg !== "string"` check). -/
inductive JsInput
  | str (s : String)
  | nonString
deriving Repr, DecidableEq

/-- The connection handler head (part_000 lines 72-87): register the
identity, run the ban check (which may lazily purge an expired entry), and
either emit `banned` and force-close, or reset consent and ask for
agreement.  Note the identity mapping is written *before* the ban check. -/
def connectStep (st : ServerState) (sid ident : String) (now : Nat) :
    ServerState × List Emit :=
  let st1 := { st with
    connected := if st.connected.contains sid then st.connected
                 else st.connected ++ [sid],
    identBySocket := mset st.identBySocket sid ident }
  let bc := isTemporarilyBanned st1.tempBans ident now
  let st2 := { st1 with tempBans := bc.2 }
  if bc.1 then
    -- `socket.disconnect(true)` before the disconnect handler is
    -- registered: the socket closes, no cleanup runs.
    ({ st2 with connected := st2.connected.filter (fun x => !(x == sid)) },
     [⟨sid, "banned", none⟩])
  else
    ({ st2 with agreed := st2.agreed.filter (fun x => !(x == sid)) },
     [⟨sid, "need_agree", none⟩])

/-- The `agree` handler (part_000 lines 89-92). -/
def agreeStep (st : ServerState) (sid : String) : ServerState × List Emit :=
  ({ st with agreed := if st.agreed.contains sid then st.agreed
                       else st.agreed ++ [sid] },
   [⟨sid, "agreed_ok", none⟩])

/-- The `find` handler (part_000 lines 103-123).  When the loop finds no
eligible partner it has consumed the entire queue, so the final
`queue.push(socket.id)` leaves the queue as `[sid]`. -/
def findStep (st : ServerState) (sid : String) : ServerState × List Emit :=
  if !(st.agreed.contains sid) then (st, [⟨sid, "need_agree", none⟩])
  else if mhas st.partners sid then (st, [])
  else if st.queue.contains sid then (st, [])
  else
    match findLoop sid st.partners st.queue with
    | some (other, rest) =>
      ({ st with partners := pair st.partners sid other, queue := rest },
       [⟨sid, "matched", none⟩, ⟨other, "matched", none⟩])
    | none =>
      ({ st with queue := [sid] },
       [⟨sid, "searching", none⟩])

/-- The teardown block shared by `stop`, `next` and `disconnect`:
`const p = partners.get(id); if (p) { unpair(id); emitTo(p, "partner_left") }`. -/
def breakPair (st : ServerState) (sid : String) : ServerState × List Emit :=
  match mget st.partners sid with
  | some p =>
    if strFalsy p then (st, [])
    else ({ st with partners := unpair st.partners sid },
          [⟨p, "partner_left", none⟩])
  | none => (st, [])

/-- The `stop` handler (part_000 lines 126-137). -/
def stopStep (st : ServerState) (sid : String) : ServerState × List Emit :=
  if !(st.agreed.contains sid) then (st, [⟨sid, "need_agree", none⟩])
  else
    let b := breakPair st sid
    ({ b.1 with queue := b.1.queue.filter (fun x => !(x == sid)) },
     b.2 ++ [⟨sid, "stopped", none⟩])

/-- The `next` handler (src/server.js lines 99-111): the same teardown as
`stop`, then `socket.emit("searching")` and `socket.emit("find")`.  Both
emits go to the *client*; the server-side find handler is not invoked. -/
def nextStep (st : ServerState) (sid : String) : ServerState × List Emit :=
  if !(st.agreed.contains sid) then (st, [⟨sid, "need_agree", none⟩])
  else
    let b := breakPair st sid
    ({ b.1 with queue := b.1.queue.filter (fun x => !(x == sid)) },
     b.2 ++ [⟨sid, "searching", none⟩, ⟨sid, "find", none⟩])

/-- The `message` handler (part_000 lines 140-149). -/
def messageStep (st : ServerState) (sid : String) (payload : JsInput) :
    ServerState × List Emit :=
  if !(st.agreed.contains sid) then (st, [⟨sid, "need_agree", none⟩])
  else
    match payload with
    | .nonString => (st, [])
    | .str msg =>
      let text := jsTrim msg
      if strFalsy text then (st, [])
      else
        match mget st.partners sid with
        | some p => if strFalsy p then (st, []) else
            (st, [⟨p, "message", some text⟩])
        | none => (st, [])

/-- The body of the `disconnect` handler (part_000 lines 270-284): tear the
pairing down, drop the id from the queue, delete both pending-media entries
keyed by the id, and forget its identity mapping. -/
def disconnectCleanup (st : ServerState) (sid : String) :
    ServerState × List Emit :=
  let b := breakPair st sid
  ({ b.1 with
      queue := b.1.queue.filter (fun x => !(x == sid)),
      pendingPhotos := mdel b.1.pendingPhotos sid,
      pendingVideos := mdel b.1.pendingVideos sid,
      identBySocket := mdel b.1.identBySocket sid,
      connected := b.1.connected.filter (fun x => !(x == sid)) },
   b.2)

/-- The `report` handler (part_000 lines 152-192): resolve both identities,
record the reporter in the target's vote set, acknowledge, tear down the
current chat (notifying both sides), and on reaching the threshold clear
the votes, set a 24h ban and force-disconnect the target if it is still
online (which runs the target's disconnect cleanup). -/
def reportStep (st : ServerState) (sid : String) (now : Nat) :
    ServerState × List Emit :=
  if !(st.agreed.contains sid) then (st, [⟨sid, "need_agree", none⟩])
  else
    match mget st.partners sid with
    | none => (st, [])
    | some p =>
      if strFalsy p then (st, [])
      else
        match mget st.identBySocket p, mget st.identBySocket sid with
        | some tIdent, some rIdent =>
          if strFalsy tIdent || strFalsy rIdent then (st, [])
          else
            let voters := (mget st.reportVotes tIdent).getD []
            let voters2 := if voters.contains rIdent then voters
                           else voters ++ [rIdent]
            let st1 := { st with
              reportVotes := mset st.reportVotes tIdent voters2,
              partners := unpair st.partners sid }
            let em1 : List Emit :=
              [⟨sid, "report_received", none⟩, ⟨p, "partner_left", none⟩,
               ⟨sid, "partner_left", none⟩]
            if REPORT_THRESHOLD ≤ voters2.length then
              let st2 := { st1 with
                reportVotes := mdel st1.reportVotes tIdent,
                tempBans := mset st1.tempBans tIdent (now + BAN_MS) }
              if st2.connected.contains p then
                let d := disconnectCleanup st2 p
                (d.1, em1 ++ [⟨p, "reported_and_banned", none⟩] ++ d.2)
              else
                (st2, em1 ++ [⟨p, "reported_and_banned", none⟩])
            else (st1, em1)
        | _, _ => (st, [])

/-- The `photo_offer` handler (part_000 lines 195-206). -/
def photoOfferStep (st : ServerState) (sid dataUrl : String) :
    ServerState × List Emit :=
  if !(st.agreed.contains sid) then (st, [⟨sid, "need_agree", none⟩])
  else
    match mget st.partners sid with
    | none => (st, [])
    | some receiverId =>
      if strFalsy receiverId then (st, [])
      else if !(strStarts dataUrl ("data:image/")) then (st, [])
      else
        let pp := mset st.pendingPhotos receiverId ⟨sid, dataUrl⟩
        ({ st with pendingPhotos := pp },
         [⟨receiverId, "photo_request", none⟩, ⟨sid, "photo_sent", none⟩])

/-- The `photo_accept` handler (part_000 lines 208-221). -/
def photoAcceptStep (st : ServerState) (sid : String) :
    ServerState × List Emit :=
  if !(st.agreed.contains sid) then (st, [⟨sid, "need_agree", none⟩])
  else
    match mget st.pendingPhotos sid with
    | none => (st, [])
    | some req =>
      ({ st with pendingPhotos := mdel st.pendingPhotos sid },
       [⟨sid, "photo_deliver", some req.dataUrl⟩,
        ⟨req.fromSocketId, "message", some "✅ Photo accepted"⟩])

/-- The `photo_decline` handler (part_000 lines 223-231). -/
def photoDeclineStep (st : ServerState) (sid : String) :
    ServerState × List Emit :=
  if !(st.agreed.contains sid) then (st, [⟨sid, "need_agree", none⟩])
  else
    match mget st.pendingPhotos sid with
    | none => (st, [])
    | some req =>
      ({ st with pendingPhotos := mdel st.pendingPhotos sid },
       [⟨req.fromSocketId, "message", some "❌ Photo declined"⟩])

/-- The `video_offer` handler (part_000 lines 234-245). -/
def videoOfferStep (st : ServerState) (sid dataUrl : String) :
    ServerState × List Emit :=
  if !(st.agreed.contains sid) then (st, [⟨sid, "need_agree", none⟩])
  else
    match mget st.partners sid with
    | none => (st, [])
    | some receiverId =>
      if strFalsy receiverId then (st, [])
      else if !(strStarts dataUrl ("data:video/")) then (st, [])
      else
        let pv := mset st.pendingVideos receiverId ⟨sid, dataUrl⟩
        ({ st with pendingVideos := pv },
         [⟨receiverId, "video_request", none⟩, ⟨sid, "video_sent", none⟩])

/-- The `video_accept` handler (part_000 lines 247-257). -/
def videoAcceptStep (st : ServerState) (sid : String) :
    ServerState × List Emit :=
  if !(st.agreed.contains sid) then (st, [⟨sid, "need_agree", none⟩])
  else
    match mget st.pendingVideos sid with
    | none => (st, [])
    | some req =>
      ({ st with pendingVideos := mdel st.pendingVideos sid },
       [⟨sid, "video_deliver", some req.dataUrl⟩,
        ⟨req.fromSocketId, "message", some "✅ Video accepted"⟩])

/-- The `video_decline` handler (part_000 lines 259-267). -/
def videoDeclineStep (st : ServerState) (sid : String) :
    ServerState × List Emit :=
  if !(st.agreed.contains sid) then (st, [⟨sid, "need_agree", none⟩])
  else
    match mget st.pendingVideos sid with
    | none => (st, [])
    | some req =>
      ({ st with pendingVideos := mdel st.pendingVideos sid },
       [⟨req.fromSocketId, "message", some "❌ Video declined"⟩])

/-- The inbound events the server consumes.  Timestamps accompany the
events whose handlers read `Date.now()`. -/
inductive Ev
  | connect (sid ident : String) (now : Nat)
  | agree (sid : String)
  | find (sid : String)
  | stop (sid : String)
  | next (sid : String)
  | message (sid : String) (payload : JsInput)
  | report (sid : String) (now : Nat)
  | photoOffer (sid dataUrl : String)
  | photoAccept (sid : String)
  | photoDecline (sid : String)
  | videoOffer (sid dataUrl : String)
  | videoAccept (sid : String)
  | videoDecline (sid : String)
  | disconnect (sid : String)
deriving Repr, DecidableEq

/-- One event processed to completion (the single-threaded socket.io event
loop).  Handlers other than `connect` exist only for currently connected
sockets, so events from unknown ids are dropped. -/
def step (st : ServerState) (e : Ev) : ServerState × List Emit :=
  match e with
  | .connect sid ident now => connectStep st sid ident now
  | .agree sid =>
    if st.connected.contains sid then agreeStep st sid else (st, [])
  | .find sid =>
    if st.connected.contains sid then findStep st sid else (st, [])
  | .stop sid =>
    if st.connected.contains sid then stopStep st sid else (st, [])
  | .next sid =>
    if st.connected.contains sid then nextStep st sid else (st, [])
  | .message sid payload =>
    if st.connected.contains sid then messageStep st sid payload else (st, [])
  | .report sid now =>
    if st.connected.contains sid then reportStep st sid now else (st, [])
  | .photoOffer sid dataUrl =>
    if st.connected.contains sid then photoOfferStep st sid dataUrl
    else (st, [])
  | .photoAccept sid =>
    if st.connected.contains sid then photoAcceptStep st sid else (st, [])
  | .photoDecline sid =>
    if st.connected.contains sid then photoDeclineStep st sid else (st, [])
  | .videoOffer sid dataUrl =>
    if st.connected.contains sid then videoOfferStep st sid dataUrl
    else (st, [])
  | .videoAccept sid =>
    if st.connected.contains sid then videoAcceptStep st sid else (st, [])
  | .videoDecline sid =>
    if st.connected.contains sid then videoDeclineStep st sid else (st, [])
  | .disconnect sid =>
    if st.connected.contains sid then disconnectCleanup st sid else (st, [])

/-- Run a whole event trace from a state. -/
def run (st : ServerState) : List Ev → ServerState
  | [] => st
  | e :: evs => run (step st e).1 evs

/-- Validity of an inbound event: socket.io never hands the server an empty
socket id.  All other events are unconstrained. -/
def evValid (e : Ev) : Bool :=
  match e with
  | .connect sid _ _ => !(sid == "")
  | _ => true


/-! ### Association-map lemmas -/

theorem beqT {a b : String} (h : a = b) : (a == b) = true := by simp [h]

theorem beqF {a b : String} (h : ¬ a = b) : (a == b) = false := by simp [h]

theorem mget_nil {β : Type} (k : String) :
    mget ([] : List (String × β)) k = none := rfl

theorem mget_cons {β : Type} (a : String × β) (m : List (String × β))
    (k : String) :
    mget (a :: m) k = if a.1 = k then some a.2 else mget m k := by
  by_cases h : a.1 = k
  · simp [mget, List.find?, beqT h, h]
  · simp [mget, List.find?, beqF h, h]

theorem mdel_cons {β : Type} (a : String × β) (t : List (String × β))
    (k : String) :
    mdel (a :: t) k = if a.1 = k then mdel t k else a :: mdel t k := by
  by_cases ha : a.1 = k
  · simp [mdel, List.filter_cons, beqT ha, ha]
  · simp [mdel, List.filter_cons, beqF ha, ha]

theorem mhas_cons {β : Type} (a : String × β) (t : List (String × β))
    (k : String) :
    mhas (a :: t) k = (if a.1 = k then true else mhas t k) := by
  by_cases ha : a.1 = k
  · simp [mhas, List.any_cons, beqT ha, ha]
  · simp [mhas, List.any_cons, beqF ha, ha]

theorem mhas_eq_isSome {β : Type} (m : List (String × β)) (k : String) :
    mhas m k = (mget m k).isSome := by
  induction m with
  | nil => rfl
  | cons a t ih =>
    rw [mhas_cons, mget_cons]
    by_cases ha : a.1 = k
    · simp [ha]
    · simp [ha, ih]

theorem mhas_mget_none {β : Type} (m : List (String × β)) (k : String)
    (h : mhas m k = false) : mget m k = none := by
  rw [mhas_eq_isSome] at h
  exact Option.not_isSome_iff_eq_none.mp (by simp [h])

theorem mget_setAll_ne {β : Type} (m : List (String × β)) (k k' : String)
    (v : β) (h : ¬ k' = k) :
    mget (m.map (fun e => if e.1 == k then (k, v) else e)) k' = mget m k' := by
  induction m with
  | nil => rfl
  | cons a t ih =>
    simp only [List.map_cons]
    by_cases ha : a.1 = k
    · have e1 : (if a.1 == k then (k, v) else a) = (k, v) := by
        simp [beqT ha]
      rw [e1, mget_cons, mget_cons]
      have hk : ¬ k = k' := fun he => h he.symm
      have ha' : ¬ a.1 = k' := by rw [ha]; exact hk
      rw [if_neg hk, if_neg ha']
      exact ih
    · have e1 : (if a.1 == k then (k, v) else a) = a := by
        simp [beqF ha]
      rw [e1, mget_cons, mget_cons, ih]

theorem mget_setAll_self {β : Type} (m : List (String × β)) (k : String)
    (v : β) (h : mhas m k = true) :
    mget (m.map (fun e => if e.1 == k then (k, v) else e)) k = some v := by
  induction m with
  | nil => simp [mhas] at h
  | cons a t ih =>
    simp only [List.map_cons]
    by_cases ha : a.1 = k
    · have e1 : (if a.1 == k then (k, v) else a) = (k, v) := by
        simp [beqT ha]
      rw [e1, mget_cons]
      simp
    · have e1 : (if a.1 == k then (k, v) else a) = a := by
        simp [beqF ha]
      have h2 : mhas t k = true := by
        rw [mhas_cons] at h
        simpa [ha] using h
      rw [e1, mget_cons, if_neg ha]
      exact ih h2

theorem mget_append_single {β : Type} (m : List (String × β)) (k k' : String)
    (v : β) :
    mget (m ++ [(k, v)]) k' =
      if (mget m k').isSome then mget m k'
      else if k' = k then some v else none := by
  induction m with
  | nil =>
    rw [List.nil_append, mget_cons]
    by_cases h : k' = k
    · simp [h, mget_nil]
    · have h2 : ¬ k = k' := fun he => h he.symm
      simp [h, h2, mget_nil]
  | cons a t ih =>
    rw [List.cons_append, mget_cons, mget_cons]
    by_cases ha : a.1 = k'
    · simp [ha]
    · simp [ha, ih]

theorem mget_mset {β : Type} (m : List (String × β)) (k k' : String) (v : β) :
    mget (mset m k v) k' = if k' = k then some v else mget m k' := by
  unfold mset
  by_cases hA : (m.any fun e => e.1 == k) = true
  · rw [if_pos hA]
    by_cases h : k' = k
    · subst h
      rw [if_pos rfl]
      exact mget_setAll_self m k' v (by simpa [mhas] using hA)
    · rw [if_neg h]
      exact mget_setAll_ne m k k' v h
  · rw [if_neg hA, mget_append_single]
    by_cases h : k' = k
    · subst h
      have hf : mhas m k' = false := Bool.eq_false_iff.mpr hA
      have hn : mget m k' = none := mhas_mget_none m k' hf
      simp [hn]
    · cases hm : mget m k' <;> simp [hm, h]

theorem mget_mset_self {β : Type} (m : List (String × β)) (k : String)
    (v : β) : mget (mset m k v) k = some v := by
  simp [mget_mset]

theorem mget_mdel {β : Type} (m : List (String × β)) (k k' : String) :
    mget (mdel m k) k' = if k' = k then none else mget m k' := by
  induction m with
  | nil => by_cases h : k' = k <;> simp [mdel, mget_nil, h]
  | cons a t ih =>
    rw [mdel_cons]
    by_cases ha : a.1 = k
    · rw [if_pos ha, ih]
      by_cases h : k' = k
      · simp [h]
      · have ha' : ¬ a.1 = k' := by rw [ha]; exact fun he => h he.symm
        rw [mget_cons, if_neg ha']
    · rw [if_neg ha, mget_cons, mget_cons, ih]
      by_cases h2 : a.1 = k'
      · have hne : ¬ k' = k := fun he => ha (h2.trans he)
        simp [h2, hne]
      · simp [h2]


/-! ### Characterizations of `pair`, `unpair` and the find loop -/

theorem mget_pair (m : List (String × String)) (a b x : String) :
    mget (pair m a b) x =
      if x = b then some a else if x = a then some b else mget m x := by
  unfold pair
  rw [mget_mset, mget_mset]

theorem mget_unpair (m : List (String × String)) (a x : String) :
    mget (unpair m a) x =
      if x = a then none
      else
        match mget m a with
        | some b => if strFalsy b then mget m x
                    else if x = b then none else mget m x
        | none => mget m x := by
  unfold unpair
  cases h : mget m a with
  | none => simp only [h, mget_mdel]
  | some b =>
    by_cases hb : strFalsy b = true
    · simp only [h, hb, if_true, mget_mdel]
    · have hb' : strFalsy b = false := Bool.eq_false_iff.mpr hb
      simp only [h, hb', Bool.false_eq_true, if_false, mget_mdel]

/-- The eligibility test the find loop applies to a queue entry: truthy,
not the caller itself, and not already paired. -/
def eligible (m : List (String × String)) (sid : String) : String → Bool :=
  fun o => !strFalsy o && (!(o == sid) && !(mhas m o))

theorem findLoop_fst (sid : String) (m : List (String × String)) :
    ∀ q : List String,
      (findLoop sid m q).map (fun r => r.1) = q.find? (eligible m sid) := by
  intro q
  induction q with
  | nil => rfl
  | cons o t ih =>
    by_cases h1 : strFalsy o = true
    · have he : ¬ eligible m sid o = true := by simp [eligible, h1]
      have hl : findLoop sid m (o :: t) = findLoop sid m t := by
        simp [findLoop, h1]
      rw [hl, ih, List.find?_cons_of_neg t (by simp [eligible, h1])]
    · by_cases h2 : (o == sid) = true
      · have hl : findLoop sid m (o :: t) = findLoop sid m t := by
          simp [findLoop, h1, h2]
        rw [hl, ih, List.find?_cons_of_neg t (by simp [eligible, h2])]
      · by_cases h3 : mhas m o = true
        · have hl : findLoop sid m (o :: t) = findLoop sid m t := by
            simp [findLoop, h1, h2, h3]
          rw [hl, ih, List.find?_cons_of_neg t (by simp [eligible, h3])]
        · have he : eligible m sid o = true := by
            simp [eligible, Bool.eq_false_iff.mpr h1, Bool.eq_false_iff.mpr h2,
                  Bool.eq_false_iff.mpr h3]
          have hl : findLoop sid m (o :: t) = some (o, t) := by
            simp [findLoop, h1, h2, h3]
          rw [hl, List.find?_cons_of_pos t he]
          rfl

theorem findLoop_decomp (sid : String) (m : List (String × String)) :
    ∀ q other rest, findLoop sid m q = some (other, rest) →
      strFalsy other = false ∧ ¬ other = sid ∧ mhas m other = false ∧
      ∃ pre, q = pre ++ other :: rest := by
  intro q
  induction q with
  | nil => intro other rest h; cases h
  | cons o t ih =>
    intro other rest h
    by_cases h1 : strFalsy o = true
    · have hl : findLoop sid m (o :: t) = findLoop sid m t := by
        simp [findLoop, h1]
      rw [hl] at h
      obtain ⟨ha, hb, hc, pre, hq⟩ := ih other rest h
      exact ⟨ha, hb, hc, o :: pre, by rw [hq]; rfl⟩
    · by_cases h2 : (o == sid) = true
      · have hl : findLoop sid m (o :: t) = findLoop sid m t := by
          simp [findLoop, h1, h2]
        rw [hl] at h
        obtain ⟨ha, hb, hc, pre, hq⟩ := ih other rest h
        exact ⟨ha, hb, hc, o :: pre, by rw [hq]; rfl⟩
      · by_cases h3 : mhas m o = true
        · have hl : findLoop sid m (o :: t) = findLoop sid m t := by
            simp [findLoop, h1, h2, h3]
          rw [hl] at h
          obtain ⟨ha, hb, hc, pre, hq⟩ := ih other rest h
          exact ⟨ha, hb, hc, o :: pre, by rw [hq]; rfl⟩
        · have hl : findLoop sid m (o :: t) = some (o, t) := by
            simp [findLoop, h1, h2, h3]
          rw [hl] at h
          cases h
          refine ⟨Bool.eq_false_iff.mpr h1, ?_, Bool.eq_false_iff.mpr h3,
                  [], rfl⟩
          intro he
          exact h2 (beqT he)

/-! ### The pairing/queue invariant -/

/-- The invariant of the spec: the partner registry is symmetric
(`partner(partner(x)) = x`), no id is its own partner, no id is both
paired and queued, and the queue holds each id at most once. -/
structure PairingInv (st : ServerState) : Prop where
  symm : ∀ a b, mget st.partners a = some b → mget st.partners b = some a
  irrefl : ∀ a, ¬ mget st.partners a = some a
  excl : ∀ a, mhas st.partners a = true → ¬ a ∈ st.queue
  qnodup : st.queue.Nodup

/-- The auxiliary strengthening needed for the induction: every partner
entry involves truthy ids, and connected sockets have truthy ids. -/
structure FullInv (st : ServerState) extends PairingInv st : Prop where
  pne : ∀ a b, mget st.partners a = some b → ¬ a = "" ∧ ¬ b = ""
  cne : ∀ x, x ∈ st.connected → ¬ x = ""

theorem FullInv.samePQC {st st' : ServerState} (h : FullInv st)
    (hp : st'.partners = st.partners) (hq : st'.queue = st.queue)
    (hc : ∀ x, x ∈ st'.connected → ¬ x = "") : FullInv st' := by
  refine ⟨⟨?_, ?_, ?_, ?_⟩, ?_, ?_⟩
  · intro a b hab
    rw [hp] at hab ⊢
    exact h.symm a b hab
  · intro a
    rw [hp]
    exact h.irrefl a
  · intro a ha
    rw [hp] at ha
    rw [hq]
    exact h.excl a ha
  · rw [hq]; exact h.qnodup
  · intro a b hab
    rw [hp] at hab
    exact h.pne a b hab
  · exact hc


/-- Values surviving an `unpair` are unchanged. -/
theorem mget_unpair_cases (m : List (String × String)) (a x : String) :
    mget (unpair m a) x = mget m x ∨ mget (unpair m a) x = none := by
  rw [mget_unpair]
  by_cases hx : x = a
  · right; simp [hx]
  · rw [if_neg hx]
    cases hg : mget m a with
    | none => left; rfl
    | some b =>
      by_cases hb : strFalsy b = true
      · left; simp [hb]
      · have hb' : strFalsy b = false := Bool.eq_false_iff.mpr hb
        by_cases hxb : x = b
        · right; simp [hb', hxb]
        · left; simp [hb', hxb]

/-- Tearing a pairing down (possibly `unpair`), possibly filtering the id
out of the queue, and possibly shrinking the connected set preserves the
invariant. -/
theorem FullInv.teardown {st st' : ServerState} (h : FullInv st)
    (sid : String)
    (hp : st'.partners = unpair st.partners sid ∨ st'.partners = st.partners)
    (hq : st'.queue = st.queue.filter (fun x => !(x == sid)) ∨
          st'.queue = st.queue)
    (hc : ∀ x, x ∈ st'.connected → x ∈ st.connected) : FullInv st' := by
  have hchar : ∀ x, mget st'.partners x = mget st.partners x ∨
      mget st'.partners x = none := by
    intro x
    rcases hp with hp | hp
    · rw [hp]; exact mget_unpair_cases st.partners sid x
    · rw [hp]; left; rfl
  have hqsub : ∀ x, x ∈ st'.queue → x ∈ st.queue := by
    intro x hx
    rcases hq with hq | hq
    · rw [hq] at hx; exact (List.mem_filter.mp hx).1
    · rw [hq] at hx; exact hx
  refine ⟨⟨?_, ?_, ?_, ?_⟩, ?_, ?_⟩
  · -- symmetry
    intro a b hab
    rcases hp with hp | hp
    · rw [hp, mget_unpair] at hab ⊢
      by_cases hA : a = sid
      · simp [hA] at hab
      · rw [if_neg hA] at hab
        cases hg : mget st.partners sid with
        | none =>
          rw [hg] at hab
          have hb := h.symm a b hab
          by_cases hB : b = sid
          · rw [hB, hg] at hb; cases hb
          · rw [if_neg hB]; exact hb
        | some p =>
          have hpf : strFalsy p = false := by
            have := (h.pne sid p hg).2
            simp [strFalsy, this]
          simp only [hg, hpf, Bool.false_eq_true, if_false] at hab
          by_cases hap : a = p
          · simp [hap] at hab
          · rw [if_neg hap] at hab
            have hb := h.symm a b hab
            by_cases hB : b = sid
            · exfalso
              rw [hB, hg] at hb
              cases hb
              exact hap rfl
            · rw [if_neg hB]
              simp only [hg, hpf, Bool.false_eq_true, if_false]
              by_cases hbp : b = p
              · exfalso
                have hps := h.symm sid p hg
                rw [hbp] at hb
                rw [hb] at hps
                cases hps
                exact hA rfl
              · rw [if_neg hbp]; exact hb
    · rw [hp] at hab ⊢; exact h.symm a b hab
  · -- irreflexivity
    intro a
    rcases hchar a with he | he
    · rw [he]; exact h.irrefl a
    · rw [he]; simp
  · -- exclusivity
    intro a ha hmem
    rw [mhas_eq_isSome] at ha
    have hsome : mget st'.partners a = mget st.partners a := by
      rcases hchar a with he | he
      · exact he
      · rw [he] at ha; cases ha
    rw [hsome] at ha
    rw [← mhas_eq_isSome] at ha
    exact h.excl a ha (hqsub a hmem)
  · -- queue nodup
    rcases hq with hq | hq
    · rw [hq]; exact h.qnodup.filter _
    · rw [hq]; exact h.qnodup
  · -- partner ids truthy
    intro a b hab
    rcases hchar a with he | he
    · rw [he] at hab; exact h.pne a b hab
    · rw [he] at hab; cases hab
  · -- connected ids truthy
    intro x hx
    exact h.cne x (hc x hx)


/-- Pairing a caller with the entry the find loop produced preserves the
invariant. -/
theorem FullInv.pairStep {st st' : ServerState} (h : FullInv st)
    (sid other : String) (rest pre : List String)
    (hsid : ¬ sid = "")
    (hsp : mhas st.partners sid = false)
    (hsq : ¬ sid ∈ st.queue)
    (hof : strFalsy other = false) (hos : ¬ other = sid)
    (hop : mhas st.partners other = false)
    (hdec : st.queue = pre ++ other :: rest)
    (hp : st'.partners = pair st.partners sid other)
    (hq : st'.queue = rest)
    (hc : ∀ x, x ∈ st'.connected → x ∈ st.connected) : FullInv st' := by
  have hsget : mget st.partners sid = none := mhas_mget_none _ _ hsp
  have hoget : mget st.partners other = none := mhas_mget_none _ _ hop
  have hone : ¬ other = "" := by
    intro he
    rw [he] at hof
    simp [strFalsy] at hof
  have hqd : (other :: rest).Nodup := by
    have hn := h.qnodup
    rw [hdec] at hn
    exact hn.of_append_right
  have hor : ¬ other ∈ rest := (List.nodup_cons.mp hqd).1
  have hrd : rest.Nodup := (List.nodup_cons.mp hqd).2
  have hsub : ∀ x, x ∈ rest → x ∈ st.queue := by
    intro x hx
    rw [hdec]
    exact List.mem_append_right _ (List.mem_cons_of_mem _ hx)
  have hso : ¬ sid = other := fun he => hos he.symm
  refine ⟨⟨?_, ?_, ?_, ?_⟩, ?_, ?_⟩
  · -- symmetry
    intro a b hab
    rw [hp, mget_pair] at hab ⊢
    by_cases hA : a = other
    · rw [if_pos hA] at hab
      cases hab
      rw [if_neg hso, if_pos rfl, hA]
    · rw [if_neg hA] at hab
      by_cases hB : a = sid
      · rw [if_pos hB] at hab
        cases hab
        rw [if_pos rfl, hB]
      · rw [if_neg hB] at hab
        have hsab := h.symm a b hab
        by_cases hbo : b = other
        · exfalso; rw [hbo, hoget] at hsab; cases hsab
        · rw [if_neg hbo]
          by_cases hbs : b = sid
          · exfalso; rw [hbs, hsget] at hsab; cases hsab
          · rw [if_neg hbs]; exact hsab
  · -- irreflexivity
    intro a
    rw [hp, mget_pair]
    by_cases hA : a = other
    · rw [if_pos hA]
      intro he
      cases he
      exact hos hA.symm
    · rw [if_neg hA]
      by_cases hB : a = sid
      · rw [if_pos hB]
        intro he
        cases he
        exact hA rfl
      · rw [if_neg hB]; exact h.irrefl a
  · -- exclusivity
    intro a ha hmem
    rw [hq] at hmem
    rw [hp] at ha
    rw [mhas_eq_isSome, mget_pair] at ha
    by_cases hA : a = other
    · rw [hA] at hmem; exact hor hmem
    · rw [if_neg hA] at ha
      by_cases hB : a = sid
      · rw [hB] at hmem; exact hsq (hsub sid hmem)
      · rw [if_neg hB] at ha
        rw [← mhas_eq_isSome] at ha
        exact h.excl a ha (hsub a hmem)
  · rw [hq]; exact hrd
  · -- partner ids truthy
    intro a b hab
    rw [hp, mget_pair] at hab
    by_cases hA : a = other
    · rw [if_pos hA] at hab
      cases hab
      exact ⟨hA ▸ hone, hsid⟩
    · rw [if_neg hA] at hab
      by_cases hB : a = sid
      · rw [if_pos hB] at hab
        cases hab
        exact ⟨hB ▸ hsid, hone⟩
      · rw [if_neg hB] at hab
        exact h.pne a b hab
  · intro x hx
    exact h.cne x (hc x hx)

/-- `findStep` preserves the invariant for a truthy caller id. -/
theorem findStep_inv (st : ServerState) (sid : String) (h : FullInv st)
    (hsid : ¬ sid = "") : FullInv (findStep st sid).1 := by
  unfold findStep
  by_cases hA : st.agreed.contains sid = true
  swap
  · have : st.agreed.contains sid = false := Bool.eq_false_iff.mpr hA
    simp only [this]
    exact h
  simp only [hA, Bool.not_true, Bool.false_eq_true, if_false]
  by_cases hP : mhas st.partners sid = true
  · simp only [hP, if_true]; exact h
  have hP' : mhas st.partners sid = false := Bool.eq_false_iff.mpr hP
  simp only [hP', Bool.false_eq_true, if_false]
  by_cases hQ : st.queue.contains sid = true
  · simp only [hQ, if_true]; exact h
  have hQ' : st.queue.contains sid = false := Bool.eq_false_iff.mpr hQ
  have hQm : ¬ sid ∈ st.queue := fun hm => hQ (List.elem_iff.mpr hm)
  simp only [hQ', Bool.false_eq_true, if_false]
  cases hL : findLoop sid st.partners st.queue with
  | some r =>
    obtain ⟨other, rest⟩ := r
    obtain ⟨hof, hos, hop, pre, hdec⟩ :=
      findLoop_decomp sid st.partners st.queue other rest hL
    exact h.pairStep sid other rest pre hsid hP' hQm hof hos hop hdec
      rfl rfl (fun x hx => hx)
  | none =>
    refine ⟨⟨?_, ?_, ?_, ?_⟩, ?_, ?_⟩
    · intro a b hab; exact h.symm a b hab
    · intro a; exact h.irrefl a
    · intro a ha hmem
      have : a = sid := by simpa using hmem
      rw [this] at ha
      rw [ha] at hP'
      cases hP'
    · simp
    · intro a b hab; exact h.pne a b hab
    · intro x hx; exact h.cne x hx


theorem breakPair_partners (st : ServerState) (sid : String) :
    (breakPair st sid).1.partners = unpair st.partners sid ∨
    (breakPair st sid).1.partners = st.partners := by
  unfold breakPair
  cases mget st.partners sid with
  | none => right; rfl
  | some p =>
    dsimp only
    by_cases hb : strFalsy p = true
    · rw [if_pos hb]; right; rfl
    · rw [if_neg hb]; left; rfl

theorem breakPair_rest (st : ServerState) (sid : String) :
    (breakPair st sid).1.queue = st.queue ∧
    (breakPair st sid).1.connected = st.connected ∧
    (breakPair st sid).1.agreed = st.agreed ∧
    (breakPair st sid).1.pendingPhotos = st.pendingPhotos ∧
    (breakPair st sid).1.pendingVideos = st.pendingVideos := by
  unfold breakPair
  cases mget st.partners sid with
  | none => exact ⟨rfl, rfl, rfl, rfl, rfl⟩
  | some p =>
    dsimp only
    by_cases hb : strFalsy p = true
    · rw [if_pos hb]; exact ⟨rfl, rfl, rfl, rfl, rfl⟩
    · rw [if_neg hb]; exact ⟨rfl, rfl, rfl, rfl, rfl⟩

theorem stopStep_inv (st : ServerState) (sid : String) (h : FullInv st) :
    FullInv (stopStep st sid).1 := by
  unfold stopStep
  by_cases hA : st.agreed.contains sid = true
  swap
  · simp only [Bool.eq_false_iff.mpr hA, Bool.not_false, if_true]
    exact h
  simp only [hA, Bool.not_true, Bool.false_eq_true, if_false]
  obtain ⟨hq, hc, -, -, -⟩ := breakPair_rest st sid
  apply h.teardown sid
  · exact breakPair_partners st sid
  · left; rw [hq]
  · intro x hx
    exact hc ▸ hx

theorem nextStep_inv (st : ServerState) (sid : String) (h : FullInv st) :
    FullInv (nextStep st sid).1 := by
  unfold nextStep
  by_cases hA : st.agreed.contains sid = true
  swap
  · simp only [Bool.eq_false_iff.mpr hA, Bool.not_false, if_true]
    exact h
  simp only [hA, Bool.not_true, Bool.false_eq_true, if_false]
  obtain ⟨hq, hc, -, -, -⟩ := breakPair_rest st sid
  apply h.teardown sid
  · exact breakPair_partners st sid
  · left; rw [hq]
  · intro x hx
    exact hc ▸ hx

theorem disconnectCleanup_inv (st : ServerState) (sid : String)
    (h : FullInv st) : FullInv (disconnectCleanup st sid).1 := by
  unfold disconnectCleanup
  dsimp only
  obtain ⟨hq, hc, -, -, -⟩ := breakPair_rest st sid
  apply h.teardown sid
  · exact breakPair_partners st sid
  · left; rw [hq]
  · intro x hx
    have hx2 := (List.mem_filter.mp hx).1
    exact hc ▸ hx2

theorem reportStep_inv (st : ServerState) (sid : String) (now : Nat)
    (h : FullInv st) : FullInv (reportStep st sid now).1 := by
  unfold reportStep
  by_cases hA : st.agreed.contains sid = true
  swap
  · simp only [Bool.eq_false_iff.mpr hA, Bool.not_false, if_true]
    exact h
  simp only [hA, Bool.not_true, Bool.false_eq_true, if_false]
  cases hp : mget st.partners sid with
  | none => exact h
  | some p =>
    dsimp only
    by_cases hpf : strFalsy p = true
    · rw [if_pos hpf]; exact h
    rw [if_neg hpf]
    cases ht : mget st.identBySocket p with
    | none => exact h
    | some tIdent =>
      cases hr : mget st.identBySocket sid with
      | none => exact h
      | some rIdent =>
        dsimp only
        by_cases hf : (strFalsy tIdent || strFalsy rIdent) = true
        · rw [if_pos hf]; exact h
        rw [if_neg hf]
        have hInv2 : ∀ st2 : ServerState,
            st2.partners = unpair st.partners sid → st2.queue = st.queue →
            st2.connected = st.connected → FullInv st2 := by
          intro st2 hP hQ hC
          apply h.teardown sid
          · left; exact hP
          · right; exact hQ
          · intro x hx; exact hC ▸ hx
        repeat' split
        all_goals first
          | exact hInv2 _ rfl rfl rfl
          | exact disconnectCleanup_inv _ _ (hInv2 _ rfl rfl rfl)

theorem connectStep_inv (st : ServerState) (sid ident : String) (now : Nat)
    (h : FullInv st) (hsid : ¬ sid = "") :
    FullInv (connectStep st sid ident now).1 := by
  unfold connectStep
  have hmem : ∀ x, x ∈ (if st.connected.contains sid then st.connected
      else st.connected ++ [sid]) → ¬ x = "" := by
    intro x hx
    by_cases hg : st.connected.contains sid = true
    · rw [if_pos hg] at hx
      exact h.cne x hx
    · rw [if_neg hg] at hx
      rcases List.mem_append.mp hx with hx | hx
      · exact h.cne x hx
      · have hxe : x = sid := by simpa using hx
        rw [hxe]; exact hsid
  dsimp only
  by_cases hb : (isTemporarilyBanned st.tempBans ident now).1 = true
  · rw [if_pos hb]
    refine h.samePQC rfl rfl ?_
    intro x hx
    exact hmem x (List.mem_filter.mp hx).1
  · rw [if_neg hb]
    refine h.samePQC rfl rfl ?_
    intro x hx
    exact hmem x hx

theorem messageStep_inv (st : ServerState) (sid : String) (payload : JsInput)
    (h : FullInv st) : FullInv (messageStep st sid payload).1 := by
  unfold messageStep
  dsimp only
  split
  · exact h
  · split
    · exact h
    · split
      · exact h
      · split
        · split
          · exact h
          · exact h
        · exact h

theorem photoOfferStep_inv (st : ServerState) (sid u : String)
    (h : FullInv st) : FullInv (photoOfferStep st sid u).1 := by
  unfold photoOfferStep
  dsimp only
  split
  · exact h
  · split
    · exact h
    · split
      · exact h
      · split
        · exact h
        · exact h.samePQC rfl rfl h.cne

theorem photoAcceptStep_inv (st : ServerState) (sid : String)
    (h : FullInv st) : FullInv (photoAcceptStep st sid).1 := by
  unfold photoAcceptStep
  split
  · exact h
  · split
    · exact h
    · exact h.samePQC rfl rfl h.cne

theorem photoDeclineStep_inv (st : ServerState) (sid : String)
    (h : FullInv st) : FullInv (photoDeclineStep st sid).1 := by
  unfold photoDeclineStep
  split
  · exact h
  · split
    · exact h
    · exact h.samePQC rfl rfl h.cne

theorem videoOfferStep_inv (st : ServerState) (sid u : String)
    (h : FullInv st) : FullInv (videoOfferStep st sid u).1 := by
  unfold videoOfferStep
  dsimp only
  split
  · exact h
  · split
    · exact h
    · split
      · exact h
      · split
        · exact h
        · exact h.samePQC rfl rfl h.cne

theorem videoAcceptStep_inv (st : ServerState) (sid : String)
    (h : FullInv st) : FullInv (videoAcceptStep st sid).1 := by
  unfold videoAcceptStep
  split
  · exact h
  · split
    · exact h
    · exact h.samePQC rfl rfl h.cne

theorem videoDeclineStep_inv (st : ServerState) (sid : String)
    (h : FullInv st) : FullInv (videoDeclineStep st sid).1 := by
  unfold videoDeclineStep
  split
  · exact h
  · split
    · exact h
    · exact h.samePQC rfl rfl h.cne

theorem agreeStep_inv (st : ServerState) (sid : String) (h : FullInv st) :
    FullInv (agreeStep st sid).1 :=
  h.samePQC rfl rfl h.cne

theorem step_inv (st : ServerState) (e : Ev) (h : FullInv st)
    (hv : evValid e = true) : FullInv (step st e).1 := by
  cases e with
  | connect sid ident now =>
    apply connectStep_inv st sid ident now h
    simpa [evValid] using hv
  | agree sid =>
    simp only [step]
    split
    · exact agreeStep_inv st sid h
    · exact h
  | find sid =>
    simp only [step]
    by_cases hg : st.connected.contains sid = true
    · rw [if_pos hg]
      exact findStep_inv st sid h (h.cne sid (List.elem_iff.mp hg))
    · rw [if_neg hg]; exact h
  | stop sid =>
    simp only [step]
    split
    · exact stopStep_inv st sid h
    · exact h
  | next sid =>
    simp only [step]
    split
    · exact nextStep_inv st sid h
    · exact h
  | message sid payload =>
    simp only [step]
    split
    · exact messageStep_inv st sid payload h
    · exact h
  | report sid now =>
    simp only [step]
    split
    · exact reportStep_inv st sid now h
    · exact h
  | photoOffer sid u =>
    simp only [step]
    split
    · exact photoOfferStep_inv st sid u h
    · exact h
  | photoAccept sid =>
    simp only [step]
    split
    · exact photoAcceptStep_inv st sid h
    · exact h
  | photoDecline sid =>
    simp only [step]
    split
    · exact photoDeclineStep_inv st sid h
    · exact h
  | videoOffer sid u =>
    simp only [step]
    split
    · exact videoOfferStep_inv st sid u h
    · exact h
  | videoAccept sid =>
    simp only [step]
    split
    · exact videoAcceptStep_inv st sid h
    · exact h
  | videoDecline sid =>
    simp only [step]
    split
    · exact videoDeclineStep_inv st sid h
    · exact h
  | disconnect sid =>
    simp only [step]
    split
    · exact disconnectCleanup_inv st sid h
    · exact h

theorem run_inv (evs : List Ev) : ∀ st : ServerState, FullInv st →
    evs.all evValid = true → FullInv (run st evs) := by
  induction evs with
  | nil => intro st h _; exact h
  | cons e t ih =>
    intro st h hv
    rw [List.all_cons] at hv
    have h1 := (Bool.and_eq_true _ _).mp hv
    exact ih (step st e).1 (step_inv st e h h1.1) h1.2

theorem initState_inv : FullInv initState := by
  refine ⟨⟨?_, ?_, ?_, ?_⟩, ?_, ?_⟩
  · intro a b hab; simp [mget_nil, initState] at hab
  · intro a; simp [mget_nil, initState]
  · intro a ha; simp [mhas, initState] at ha
  · simp [initState]
  · intro a b hab; simp [mget_nil, initState] at hab
  · intro x hx; simp [initState] at hx


/-- C1: after every operation (connect, find, stop, next, message, report,
media offer/accept/decline, disconnect) applied along any valid event trace
from the initial state, the partner registry and matching queue satisfy:
an id is a key iff its partner maps back to it (symmetry), no id is its
own partner, no id is both paired and queued, and the queue holds each id
at most once. -/
theorem c1_registry_queue_invariant (evs : List Ev)
    (hv : evs.all evValid = true) : PairingInv (run initState evs) :=
  (run_inv evs initState initState_inv hv).toPairingInv

/-- A sample trace exercising connect, agree, find, message, report, stop
and disconnect. -/
def demoEvs : List Ev :=
  [.connect "a" "ia" 0, .connect "b" "ib" 0, .agree "a", .agree "b",
   .find "a", .find "b", .message "a" (.str " hi "), .report "b" 5,
   .find "a", .stop "a", .disconnect "b"]

theorem c1_registry_queue_invariant_witness :
    demoEvs.all evValid = true ∧ PairingInv (run initState demoEvs) :=
  ⟨by decide, c1_registry_queue_invariant demoEvs (by decide)⟩


/-- The contract of a `find` that was not rejected as a no-op: if some
queue entry is eligible (truthy, not the caller, not already paired) the
first such entry in FIFO order becomes the caller's partner, both sides
receive "matched" and the caller is not queued; otherwise the caller ends
up as the sole queue entry and receives "searching"; and afterwards the
caller is in exactly one of {paired, queued}. -/
def findOutcome (st : ServerState) (sid : String) : Prop :=
  ((∀ other, st.queue.find? (eligible st.partners sid) = some other →
      mget (step st (.find sid)).1.partners sid = some other ∧
      mget (step st (.find sid)).1.partners other = some sid ∧
      ¬ sid ∈ (step st (.find sid)).1.queue ∧
      (step st (.find sid)).2 =
        [⟨sid, "matched", none⟩, ⟨other, "matched", none⟩]) ∧
   (st.queue.find? (eligible st.partners sid) = none →
      (step st (.find sid)).1 = { st with queue := [sid] } ∧
      (step st (.find sid)).2 = [⟨sid, "searching", none⟩])) ∧
  ((mhas (step st (.find sid)).1.partners sid = true ∧
      ¬ sid ∈ (step st (.find sid)).1.queue) ∨
   (mhas (step st (.find sid)).1.partners sid = false ∧
      sid ∈ (step st (.find sid)).1.queue))

/-- C2: for every consented connection that is neither paired nor queued,
`find` pops queue entries front-first, skipping the caller itself and
already-paired (stale) entries, pairs the caller with the first remaining
entry in FIFO order and emits "matched" to both sides; if the queue is
exhausted it queues the caller and emits "searching"; afterwards the
caller is in exactly one of {paired, queued}.  If the caller was already
paired or queued, `find` changes nothing. -/
theorem c2_find_contract (st : ServerState) (sid : String)
    (hc : st.connected.contains sid = true)
    (ha : st.agreed.contains sid = true) :
    (mhas st.partners sid = true ∨ sid ∈ st.queue →
       step st (.find sid) = (st, [])) ∧
    (mhas st.partners sid = false → ¬ sid ∈ st.queue →
       findOutcome st sid) := by
  have hstep : step st (.find sid) = findStep st sid := by
    simp only [step]
    rw [if_pos hc]
  constructor
  · intro hno
    rw [hstep]
    unfold findStep
    simp only [ha, Bool.not_true, Bool.false_eq_true, if_false]
    by_cases hP : mhas st.partners sid = true
    · rw [if_pos hP]
    · rw [if_neg hP]
      have hq : sid ∈ st.queue := by
        rcases hno with hno | hno
        · exact absurd hno hP
        · exact hno
      rw [if_pos (List.elem_iff.mpr hq)]
  · intro hP hQ
    have hQc : st.queue.contains sid = false := by
      cases hqc : st.queue.contains sid
      · rfl
      · exact absurd (List.elem_iff.mp hqc) hQ
    unfold findOutcome
    rw [hstep]
    unfold findStep
    simp only [ha, Bool.not_true, Bool.false_eq_true, if_false, hP, hQc]
    cases hL : findLoop sid st.partners st.queue with
    | some r =>
      obtain ⟨other0, rest⟩ := r
      have hfst := findLoop_fst sid st.partners st.queue
      rw [hL] at hfst
      simp only [Option.map_some'] at hfst
      obtain ⟨hof, hos, hop, pre, hdec⟩ :=
        findLoop_decomp sid st.partners st.queue other0 rest hL
      have hso : ¬ sid = other0 := fun he => hos he.symm
      have hnrest : ¬ sid ∈ rest := by
        intro hm
        apply hQ
        rw [hdec]
        exact List.mem_append_right _ (List.mem_cons_of_mem _ hm)
      refine ⟨⟨?_, ?_⟩, ?_⟩
      · intro other hfind
        rw [← hfst] at hfind
        cases hfind
        refine ⟨?_, ?_, ?_, rfl⟩
        · rw [mget_pair, if_neg hso, if_pos rfl]
        · rw [mget_pair, if_pos rfl]
        · exact hnrest
      · intro hfind
        rw [← hfst] at hfind
        cases hfind
      · left
        constructor
        · rw [mhas_eq_isSome, mget_pair, if_neg hso, if_pos rfl]
          rfl
        · exact hnrest
    | none =>
      have hfst := findLoop_fst sid st.partners st.queue
      rw [hL] at hfst
      simp only [Option.map_none'] at hfst
      refine ⟨⟨?_, ?_⟩, ?_⟩
      · intro other hfind
        rw [← hfst] at hfind
        cases hfind
      · intro hfind
        exact ⟨rfl, rfl⟩
      · right
        exact ⟨hP, by simp⟩

/-- A reachable state with "a" consented and waiting in the queue and "b"
consented and idle. -/
def stA : ServerState :=
  run initState
    [.connect "a" "ia" 0, .connect "b" "ib" 0, .agree "a", .agree "b",
     .find "a"]

theorem c2_find_contract_witness :
    stA.connected.contains "b" = true ∧ stA.agreed.contains "b" = true ∧
    ((mhas stA.partners "b" = true ∨ "b" ∈ stA.queue →
        step stA (.find "b") = (stA, [])) ∧
     (mhas stA.partners "b" = false → ¬ "b" ∈ stA.queue →
        findOutcome stA "b")) :=
  ⟨by decide, by decide, c2_find_contract stA "b" (by decide) (by decide)⟩


theorem neT {b : Bool} (h : b = false) : ¬ b = true := by
  rw [h]
  exact Bool.false_ne_true

theorem notNeT {b : Bool} (h : b = true) : ¬ (!b) = true := by
  rw [h]
  simp

/-- The contract of the `message` handler for a consented sender: non-string
or empty-after-trim payloads are dropped with no state change and no
notice; a paired sender's trimmed text goes verbatim to the partner and to
no one else; an unpaired sender's message is a no-op. -/
def messageOutcome (st : ServerState) (sid : String) : Prop :=
  (step st (.message sid .nonString) = (st, [])) ∧
  (∀ s, strFalsy (jsTrim s) = true →
     step st (.message sid (.str s)) = (st, [])) ∧
  (∀ s p, strFalsy (jsTrim s) = false → mget st.partners sid = some p →
     strFalsy p = false →
     step st (.message sid (.str s)) =
       (st, [⟨p, "message", some (jsTrim s)⟩])) ∧
  (∀ s, strFalsy (jsTrim s) = false → mget st.partners sid = none →
     step st (.message sid (.str s)) = (st, []))

/-- C8: for every consented connection, a message whose payload is not a
string or is empty after trimming is silently dropped with no state change
and no notice; otherwise, if the sender is paired, the trimmed text is
delivered verbatim to the current partner and to no one else; if unpaired,
the message is a no-op. -/
theorem c8_message_contract (st : ServerState) (sid : String)
    (hc : st.connected.contains sid = true)
    (ha : st.agreed.contains sid = true) : messageOutcome st sid := by
  have hstep : ∀ payload, step st (.message sid payload) =
      messageStep st sid payload := by
    intro payload
    simp only [step]
    rw [if_pos hc]
  refine ⟨?_, ?_, ?_, ?_⟩
  · rw [hstep]
    unfold messageStep
    simp only [ha, Bool.not_true, Bool.false_eq_true, if_false]
  · intro s hs
    rw [hstep]
    unfold messageStep
    simp only [ha, Bool.not_true, Bool.false_eq_true, if_false]
    rw [if_pos hs]
  · intro s p hs hp hpf
    rw [hstep]
    unfold messageStep
    simp only [ha, Bool.not_true, Bool.false_eq_true, if_false, hp]
    rw [if_neg (neT hs), if_neg (neT hpf)]
  · intro s hs hp
    rw [hstep]
    unfold messageStep
    simp only [ha, Bool.not_true, Bool.false_eq_true, if_false, hp]
    rw [if_neg (neT hs)]

/-- A reachable state in which "a" and "b" are consented and paired with
each other. -/
def stPaired : ServerState :=
  run initState
    [.connect "a" "ia" 0, .connect "b" "ib" 0, .agree "a", .agree "b",
     .find "a", .find "b"]

theorem c8_message_contract_witness :
    stPaired.connected.contains "a" = true ∧
    stPaired.agreed.contains "a" = true ∧ messageOutcome stPaired "a" :=
  ⟨by decide, by decide, c8_message_contract stPaired "a" (by decide) (by decide)⟩


/-- Two successive media offers to the same receiver before resolution:
only the second is retrievable, and a subsequent accept removes the stored
offer and delivers exactly the second payload (photo and video flows). -/
def mediaReplaceOutcome (st : ServerState)
    (sid recv u1 u2 v1 v2 : String) : Prop :=
  mget (step (step st (.photoOffer sid u1)).1
          (.photoOffer sid u2)).1.pendingPhotos recv = some ⟨sid, u2⟩ ∧
  mget (step (step (step st (.photoOffer sid u1)).1
          (.photoOffer sid u2)).1 (.photoAccept recv)).1.pendingPhotos recv
      = none ∧
  (step (step (step st (.photoOffer sid u1)).1
          (.photoOffer sid u2)).1 (.photoAccept recv)).2 =
    [⟨recv, "photo_deliver", some u2⟩,
     ⟨sid, "message", some "✅ Photo accepted"⟩] ∧
  mget (step (step st (.videoOffer sid v1)).1
          (.videoOffer sid v2)).1.pendingVideos recv = some ⟨sid, v2⟩ ∧
  mget (step (step (step st (.videoOffer sid v1)).1
          (.videoOffer sid v2)).1 (.videoAccept recv)).1.pendingVideos recv
      = none ∧
  (step (step (step st (.videoOffer sid v1)).1
          (.videoOffer sid v2)).1 (.videoAccept recv)).2 =
    [⟨recv, "video_deliver", some v2⟩,
     ⟨sid, "message", some "✅ Video accepted"⟩]

/-- C7: for every photo or video offer, a second offer to the same receiver
before the first is accepted or declined silently replaces the first (at
most one outstanding offer per receiver), and a subsequent accept by the
receiver removes the stored offer and delivers exactly the payload of the
second (latest) offer. -/
theorem c7_media_replace (st : ServerState) (sid recv u1 u2 v1 v2 : String)
    (hc : st.connected.contains sid = true)
    (ha : st.agreed.contains sid = true)
    (hrc : st.connected.contains recv = true)
    (hra : st.agreed.contains recv = true)
    (hp : mget st.partners sid = some recv)
    (hrf : strFalsy recv = false)
    (hu1 : strStarts u1 ("data:image/") = true)
    (hu2 : strStarts u2 ("data:image/") = true)
    (hv1 : strStarts v1 ("data:video/") = true)
    (hv2 : strStarts v2 ("data:video/") = true) :
    mediaReplaceOutcome st sid recv u1 u2 v1 v2 := by
  have e1 : step st (.photoOffer sid u1) =
      ({ st with pendingPhotos := mset st.pendingPhotos recv ⟨sid, u1⟩ },
       [⟨recv, "photo_request", none⟩, ⟨sid, "photo_sent", none⟩]) := by
    simp only [step]
    rw [if_pos hc]
    unfold photoOfferStep
    simp only [ha, Bool.not_true, Bool.false_eq_true, if_false, hp]
    rw [if_neg (neT hrf), if_neg (notNeT hu1)]
  have e2 : step ({ st with pendingPhotos := mset st.pendingPhotos recv ⟨sid, u1⟩ }) (.photoOffer sid u2) =
      ({ st with pendingPhotos := mset (mset st.pendingPhotos recv ⟨sid, u1⟩) recv ⟨sid, u2⟩ },
       [⟨recv, "photo_request", none⟩, ⟨sid, "photo_sent", none⟩]) := by
    simp only [step]
    rw [if_pos hc]
    unfold photoOfferStep
    simp only [ha, Bool.not_true, Bool.false_eq_true, if_false, hp]
    rw [if_neg (neT hrf), if_neg (notNeT hu2)]
  have hm2 : mget (mset (mset st.pendingPhotos recv ⟨sid, u1⟩) recv
      ⟨sid, u2⟩) recv = some ⟨sid, u2⟩ := mget_mset_self _ _ _
  have e3 : step ({ st with pendingPhotos := mset (mset st.pendingPhotos recv ⟨sid, u1⟩) recv ⟨sid, u2⟩ }) (.photoAccept recv) =
      ({ st with pendingPhotos := mdel (mset (mset st.pendingPhotos recv ⟨sid, u1⟩) recv ⟨sid, u2⟩) recv },
       [⟨recv, "photo_deliver", some u2⟩,
        ⟨sid, "message", some "✅ Photo accepted"⟩]) := by
    simp only [step]
    rw [if_pos hrc]
    unfold photoAcceptStep
    simp only [hra, Bool.not_true, Bool.false_eq_true, if_false, hm2]
  have f1 : step st (.videoOffer sid v1) =
      ({ st with pendingVideos := mset st.pendingVideos recv ⟨sid, v1⟩ },
       [⟨recv, "video_request", none⟩, ⟨sid, "video_sent", none⟩]) := by
    simp only [step]
    rw [if_pos hc]
    unfold videoOfferStep
    simp only [ha, Bool.not_true, Bool.false_eq_true, if_false, hp]
    rw [if_neg (neT hrf), if_neg (notNeT hv1)]
  have f2 : step ({ st with pendingVideos := mset st.pendingVideos recv ⟨sid, v1⟩ }) (.videoOffer sid v2) =
      ({ st with pendingVideos := mset (mset st.pendingVideos recv ⟨sid, v1⟩) recv ⟨sid, v2⟩ },
       [⟨recv, "video_request", none⟩, ⟨sid, "video_sent", none⟩]) := by
    simp only [step]
    rw [if_pos hc]
    unfold videoOfferStep
    simp only [ha, Bool.not_true, Bool.false_eq_true, if_false, hp]
    rw [if_neg (neT hrf), if_neg (notNeT hv2)]
  have hn2 : mget (mset (mset st.pendingVideos recv ⟨sid, v1⟩) recv
      ⟨sid, v2⟩) recv = some ⟨sid, v2⟩ := mget_mset_self _ _ _
  have f3 : step ({ st with pendingVideos := mset (mset st.pendingVideos recv ⟨sid, v1⟩) recv ⟨sid, v2⟩ }) (.videoAccept recv) =
      ({ st with pendingVideos := mdel (mset (mset st.pendingVideos recv ⟨sid, v1⟩) recv ⟨sid, v2⟩) recv },
       [⟨recv, "video_deliver", some v2⟩,
        ⟨sid, "message", some "✅ Video accepted"⟩]) := by
    simp only [step]
    rw [if_pos hrc]
    unfold videoAcceptStep
    simp only [hra, Bool.not_true, Bool.false_eq_true, if_false, hn2]
  unfold mediaReplaceOutcome
  rw [e1]
  dsimp only
  rw [e2]
  dsimp only
  rw [e3, f1]
  dsimp only
  rw [f2]
  dsimp only
  rw [f3]
  dsimp only
  refine ⟨hm2, ?_, rfl, hn2, ?_, rfl⟩
  · rw [mget_mdel]
    simp
  · rw [mget_mdel]
    simp

theorem c7_media_replace_witness :
    stPaired.connected.contains "b" = true ∧
    stPaired.agreed.contains "b" = true ∧
    stPaired.connected.contains "a" = true ∧
    stPaired.agreed.contains "a" = true ∧
    mget stPaired.partners "b" = some "a" ∧
    strFalsy "a" = false ∧
    strStarts "data:image/p1" ("data:image/") = true ∧
    strStarts "data:image/p2" ("data:image/") = true ∧
    strStarts "data:video/q1" ("data:video/") = true ∧
    strStarts "data:video/q2" ("data:video/") = true ∧
    mediaReplaceOutcome stPaired "b" "a" "data:image/p1" "data:image/p2"
      "data:video/q1" "data:video/q2" :=
  ⟨by decide, by decide, by decide, by decide, by decide, by decide,
   by decide, by decide, by decide, by decide,
   c7_media_replace stPaired "b" "a" "data:image/p1" "data:image/p2"
     "data:video/q1" "data:video/q2" (by decide) (by decide) (by decide)
     (by decide) (by decide) (by decide) (by decide) (by decide)
     (by decide) (by decide)⟩


theorem breakPair_moder (st : ServerState) (sid : String) :
    (breakPair st sid).1.tempBans = st.tempBans ∧
    (breakPair st sid).1.reportVotes = st.reportVotes ∧
    (breakPair st sid).1.identBySocket = st.identBySocket ∧
    (breakPair st sid).1.agreed = st.agreed := by
  unfold breakPair
  cases mget st.partners sid with
  | none => exact ⟨rfl, rfl, rfl, rfl⟩
  | some p =>
    dsimp only
    by_cases hb : strFalsy p = true
    · rw [if_pos hb]; exact ⟨rfl, rfl, rfl, rfl⟩
    · rw [if_neg hb]; exact ⟨rfl, rfl, rfl, rfl⟩

/-- After a report by a paired, consented reporter, both directions of the
pairing are gone and both sides were notified with "partner_left". -/
def reportTeardownOutcome (st : ServerState) (sid p : String)
    (now : Nat) : Prop :=
  mhas (step st (.report sid now)).1.partners sid = false ∧
  mhas (step st (.report sid now)).1.partners p = false ∧
  ⟨p, "partner_left", none⟩ ∈ (step st (.report sid now)).2 ∧
  ⟨sid, "partner_left", none⟩ ∈ (step st (.report sid now)).2

/-- C4: for every consented and paired connection, a report immediately
tears down the current pairing (removing both directions from the partner
registry and notifying both sides), regardless of whether the report tally
has reached the ban threshold. -/
theorem c4_report_teardown (st : ServerState) (sid p tIdent rIdent : String)
    (now : Nat)
    (hc : st.connected.contains sid = true)
    (ha : st.agreed.contains sid = true)
    (hp : mget st.partners sid = some p)
    (hpf : strFalsy p = false)
    (ht : mget st.identBySocket p = some tIdent)
    (htf : strFalsy tIdent = false)
    (hr : mget st.identBySocket sid = some rIdent)
    (hrf : strFalsy rIdent = false) :
    reportTeardownOutcome st sid p now := by
  have hU1 : mhas (unpair st.partners sid) sid = false := by
    rw [mhas_eq_isSome, mget_unpair]
    simp
  have hUp : mget (unpair st.partners sid) p = none := by
    rw [mget_unpair]
    by_cases hps : p = sid
    · simp [hps]
    · rw [if_neg hps]
      simp [hp, hpf]
  have hU2 : mhas (unpair st.partners sid) p = false := by
    rw [mhas_eq_isSome, hUp]
    rfl
  have hbp2 : ∀ st2 : ServerState,
      st2.partners = unpair st.partners sid →
      breakPair st2 p = (st2, []) := by
    intro st2 hP
    unfold breakPair
    rw [hP, hUp]
  have hDC : ∀ st2 : ServerState,
      st2.partners = unpair st.partners sid →
      (disconnectCleanup st2 p).1.partners = st2.partners ∧
      (disconnectCleanup st2 p).2 = [] := by
    intro st2 hP
    unfold disconnectCleanup
    rw [hbp2 st2 hP]
    exact ⟨rfl, rfl⟩
  have hstep : step st (.report sid now) = reportStep st sid now := by
    simp only [step]
    rw [if_pos hc]
  have hff : (strFalsy tIdent || strFalsy rIdent) = false := by
    rw [htf, hrf]
    rfl
  have hres1 : ∀ st2 : ServerState, st2.partners = unpair st.partners sid →
      mhas (disconnectCleanup st2 p).1.partners sid = false := by
    intro st2 hP
    rw [(hDC st2 hP).1, hP]
    exact hU1
  have hres2 : ∀ st2 : ServerState, st2.partners = unpair st.partners sid →
      mhas (disconnectCleanup st2 p).1.partners p = false := by
    intro st2 hP
    rw [(hDC st2 hP).1, hP]
    exact hU2
  unfold reportTeardownOutcome
  rw [hstep]
  unfold reportStep
  simp only [ha, Bool.not_true, Bool.false_eq_true, if_false, hp]
  rw [if_neg (neT hpf)]
  simp only [ht, hr]
  rw [if_neg (neT hff)]
  repeat' split
  all_goals refine ⟨?_, ?_, by simp, by simp⟩ <;>
    first
      | exact hU1
      | exact hU2
      | exact hres1 _ rfl
      | exact hres2 _ rfl

theorem c4_report_teardown_witness :
    stPaired.connected.contains "a" = true ∧
    stPaired.agreed.contains "a" = true ∧
    mget stPaired.partners "a" = some "b" ∧
    strFalsy "b" = false ∧
    mget stPaired.identBySocket "b" = some "ib" ∧
    strFalsy "ib" = false ∧
    mget stPaired.identBySocket "a" = some "ia" ∧
    strFalsy "ia" = false ∧
    reportTeardownOutcome stPaired "a" "b" 77 :=
  ⟨by decide, by decide, by decide, by decide, by decide, by decide,
   by decide, by decide,
   c4_report_teardown stPaired "a" "b" "ib" "ia" 77 (by decide) (by decide)
     (by decide) (by decide) (by decide) (by decide) (by decide) (by decide)⟩


/-- The deduplicated report-tally contract: a repeated reporter leaves the
vote set unchanged (and below the threshold never bans); a new reporter is
appended; when the set reaches 10 distinct reporters the ban is set to
now + 24h and the tally is cleared. -/
def reportTallyOutcome (st : ServerState) (sid tIdent rIdent : String)
    (now : Nat) : Prop :=
  (((mget st.reportVotes tIdent).getD []).contains rIdent = true →
     ((mget st.reportVotes tIdent).getD []).length < 10 →
     mget (step st (.report sid now)).1.reportVotes tIdent =
       some ((mget st.reportVotes tIdent).getD []) ∧
     (step st (.report sid now)).1.tempBans = st.tempBans) ∧
  (((mget st.reportVotes tIdent).getD []).contains rIdent = false →
     ((mget st.reportVotes tIdent).getD []).length + 1 < 10 →
     mget (step st (.report sid now)).1.reportVotes tIdent =
       some ((mget st.reportVotes tIdent).getD [] ++ [rIdent]) ∧
     (step st (.report sid now)).1.tempBans = st.tempBans) ∧
  (((mget st.reportVotes tIdent).getD []).contains rIdent = false →
     10 ≤ ((mget st.reportVotes tIdent).getD []).length + 1 →
     mget (step st (.report sid now)).1.tempBans tIdent =
       some (now + BAN_MS) ∧
     mget (step st (.report sid now)).1.reportVotes tIdent = none)

/-- C3: report tallies are deduplicated by reporter identity: 9 distinct
reporters do not trigger a ban, the 10th distinct reporter bans the target
identity until now + 24 hours and clears the tally, and a repeated report
by an already-counted reporter never grows the tally and never triggers
the ban by itself. -/
theorem c3_report_dedup (st : ServerState) (sid p tIdent rIdent : String)
    (now : Nat)
    (hc : st.connected.contains sid = true)
    (ha : st.agreed.contains sid = true)
    (hp : mget st.partners sid = some p)
    (hpf : strFalsy p = false)
    (ht : mget st.identBySocket p = some tIdent)
    (htf : strFalsy tIdent = false)
    (hr : mget st.identBySocket sid = some rIdent)
    (hrf : strFalsy rIdent = false) :
    reportTallyOutcome st sid tIdent rIdent now := by
  have hstep : step st (.report sid now) = reportStep st sid now := by
    simp only [step]
    rw [if_pos hc]
  have hff : (strFalsy tIdent || strFalsy rIdent) = false := by
    rw [htf, hrf]
    rfl
  have hDCmod : ∀ st2 : ServerState,
      (disconnectCleanup st2 p).1.tempBans = st2.tempBans ∧
      (disconnectCleanup st2 p).1.reportVotes = st2.reportVotes := by
    intro st2
    unfold disconnectCleanup
    exact ⟨(breakPair_moder st2 p).1, (breakPair_moder st2 p).2.1⟩
  have hnone : ∀ rv : List (String × List String),
      mget (mdel rv tIdent) tIdent = none := by
    intro rv
    rw [mget_mdel]
    simp
  unfold reportTallyOutcome
  rw [hstep]
  unfold reportStep
  simp only [ha, Bool.not_true, Bool.false_eq_true, if_false, hp]
  rw [if_neg (neT hpf)]
  simp only [ht, hr]
  rw [if_neg (neT hff)]
  refine ⟨?_, ?_, ?_⟩
  · intro h1 h2
    rw [if_pos h1]
    rw [if_neg (by unfold REPORT_THRESHOLD; omega)]
    exact ⟨mget_mset_self _ _ _, rfl⟩
  · intro h1 h2
    rw [if_neg (neT h1)]
    rw [if_neg (by unfold REPORT_THRESHOLD; simp; omega)]
    exact ⟨mget_mset_self _ _ _, rfl⟩
  · intro h1 h2
    rw [if_neg (neT h1)]
    rw [if_pos (by unfold REPORT_THRESHOLD; simp; omega)]
    split
    · refine ⟨?_, ?_⟩
      · rw [(hDCmod _).1]
        exact mget_mset_self _ _ _
      · rw [(hDCmod _).2]
        exact hnone _
    · exact ⟨mget_mset_self _ _ _, hnone _⟩

theorem c3_report_dedup_witness :
    stPaired.connected.contains "a" = true ∧
    stPaired.agreed.contains "a" = true ∧
    mget stPaired.partners "a" = some "b" ∧
    strFalsy "b" = false ∧
    mget stPaired.identBySocket "b" = some "ib" ∧
    strFalsy "ib" = false ∧
    mget stPaired.identBySocket "a" = some "ia" ∧
    strFalsy "ia" = false ∧
    reportTallyOutcome stPaired "a" "ib" "ia" 42 :=
  ⟨by decide, by decide, by decide, by decide, by decide, by decide,
   by decide, by decide,
   c3_report_dedup stPaired "a" "b" "ib" "ia" 42 (by decide) (by decide)
     (by decide) (by decide) (by decide) (by decide) (by decide) (by decide)⟩


/-- Pending media offers survive the end of the pairing they were made in:
stop/next never touch them, the sender's disconnect only removes offers
keyed by the sender, and the consented receiver can still accept (getting
the stored payload) or decline; only the receiver's own disconnect, accept
or decline removes the offer. -/
def offerSurvivalOutcome (st : ServerState) (recv sender : String)
    (req vreq : MediaReq) : Prop :=
  (∀ x, (step st (.stop x)).1.pendingPhotos = st.pendingPhotos ∧
        (step st (.stop x)).1.pendingVideos = st.pendingVideos) ∧
  (∀ x, (step st (.next x)).1.pendingPhotos = st.pendingPhotos ∧
        (step st (.next x)).1.pendingVideos = st.pendingVideos) ∧
  (mget (step st (.disconnect sender)).1.pendingPhotos recv =
     mget st.pendingPhotos recv ∧
   mget (step st (.disconnect sender)).1.pendingVideos recv =
     mget st.pendingVideos recv) ∧
  (step st (.photoAccept recv) =
    ({ st with pendingPhotos := mdel st.pendingPhotos recv },
     [⟨recv, "photo_deliver", some req.dataUrl⟩,
      ⟨req.fromSocketId, "message", some "✅ Photo accepted"⟩])) ∧
  (step st (.videoAccept recv) =
    ({ st with pendingVideos := mdel st.pendingVideos recv },
     [⟨recv, "video_deliver", some vreq.dataUrl⟩,
      ⟨vreq.fromSocketId, "message", some "✅ Video accepted"⟩])) ∧
  (mget (step st (.photoDecline recv)).1.pendingPhotos recv = none) ∧
  (mget (step st (.videoDecline recv)).1.pendingVideos recv = none) ∧
  (mget (step st (.disconnect recv)).1.pendingPhotos recv = none ∧
   mget (step st (.disconnect recv)).1.pendingVideos recv = none)

/-- C10: a pending media offer keyed by a receiver survives the end of the
pairing it was made in: stop/next and the sender's disconnect do not remove
offers keyed by other connections, so a consented receiver can still
accept (receiving the stored payload) or decline after the pairing is gone
or the offering partner disconnected; only the receiver's own disconnect,
accept, or decline removes the offer. -/
theorem c10_offer_survival (st : ServerState) (recv sender : String)
    (req vreq : MediaReq)
    (hrc : st.connected.contains recv = true)
    (hra : st.agreed.contains recv = true)
    (hreq : mget st.pendingPhotos recv = some req)
    (hvreq : mget st.pendingVideos recv = some vreq)
    (hsc : st.connected.contains sender = true)
    (hsne : ¬ sender = recv) :
    offerSurvivalOutcome st recv sender req vreq := by
  have hrs : ¬ recv = sender := fun he => hsne he.symm
  have hstopP : ∀ x, (stopStep st x).1.pendingPhotos = st.pendingPhotos ∧
      (stopStep st x).1.pendingVideos = st.pendingVideos := by
    intro x
    unfold stopStep
    by_cases hA : st.agreed.contains x = true
    · simp only [hA, Bool.not_true, Bool.false_eq_true, if_false]
      obtain ⟨-, -, -, h4, h5⟩ := breakPair_rest st x
      exact ⟨h4, h5⟩
    · rw [Bool.eq_false_iff.mpr hA]
      exact ⟨rfl, rfl⟩
  have hnextP : ∀ x, (nextStep st x).1.pendingPhotos = st.pendingPhotos ∧
      (nextStep st x).1.pendingVideos = st.pendingVideos := by
    intro x
    unfold nextStep
    by_cases hA : st.agreed.contains x = true
    · simp only [hA, Bool.not_true, Bool.false_eq_true, if_false]
      obtain ⟨-, -, -, h4, h5⟩ := breakPair_rest st x
      exact ⟨h4, h5⟩
    · rw [Bool.eq_false_iff.mpr hA]
      exact ⟨rfl, rfl⟩
  refine ⟨?_, ?_, ?_, ?_, ?_, ?_, ?_, ?_⟩
  · intro x
    simp only [step]
    split
    · exact hstopP x
    · exact ⟨rfl, rfl⟩
  · intro x
    simp only [step]
    split
    · exact hnextP x
    · exact ⟨rfl, rfl⟩
  · simp only [step]
    rw [if_pos hsc]
    unfold disconnectCleanup
    obtain ⟨-, -, -, h4, h5⟩ := breakPair_rest st sender
    constructor
    · show mget (mdel (breakPair st sender).1.pendingPhotos sender) recv = _
      rw [h4, mget_mdel, if_neg hrs]
    · show mget (mdel (breakPair st sender).1.pendingVideos sender) recv = _
      rw [h5, mget_mdel, if_neg hrs]
  · simp only [step]
    rw [if_pos hrc]
    unfold photoAcceptStep
    simp only [hra, Bool.not_true, Bool.false_eq_true, if_false, hreq]
  · simp only [step]
    rw [if_pos hrc]
    unfold videoAcceptStep
    simp only [hra, Bool.not_true, Bool.false_eq_true, if_false, hvreq]
  · simp only [step]
    rw [if_pos hrc]
    unfold photoDeclineStep
    simp only [hra, Bool.not_true, Bool.false_eq_true, if_false, hreq]
    rw [mget_mdel]
    simp
  · simp only [step]
    rw [if_pos hrc]
    unfold videoDeclineStep
    simp only [hra, Bool.not_true, Bool.false_eq_true, if_false, hvreq]
    rw [mget_mdel]
    simp
  · simp only [step]
    rw [if_pos hrc]
    unfold disconnectCleanup
    obtain ⟨-, -, -, h4, h5⟩ := breakPair_rest st recv
    constructor
    · show mget (mdel (breakPair st recv).1.pendingPhotos recv) recv = none
      rw [h4, mget_mdel]
      simp
    · show mget (mdel (breakPair st recv).1.pendingVideos recv) recv = none
      rw [h5, mget_mdel]
      simp

/-- A reachable state in which "b" offered "a" a photo and a video while
they were paired, and "a" then stopped the chat: the pairing is gone but
both offers are still stored under "a". -/
def stOffers : ServerState :=
  run initState
    [.connect "a" "ia" 0, .connect "b" "ib" 0, .agree "a", .agree "b",
     .find "a", .find "b", .photoOffer "b" "data:image/x",
     .videoOffer "b" "data:video/y", .stop "a"]

theorem c10_offer_survival_witness :
    stOffers.connected.contains "a" = true ∧
    stOffers.agreed.contains "a" = true ∧
    mget stOffers.pendingPhotos "a" = some ⟨"b", "data:image/x"⟩ ∧
    mget stOffers.pendingVideos "a" = some ⟨"b", "data:video/y"⟩ ∧
    stOffers.connected.contains "b" = true ∧
    ¬ "b" = "a" ∧
    mhas stOffers.partners "a" = false ∧
    offerSurvivalOutcome stOffers "a" "b" ⟨"b", "data:image/x"⟩
      ⟨"b", "data:video/y"⟩ :=
  ⟨by decide, by decide, by decide, by decide, by decide, by decide,
   by decide,
   c10_offer_survival stOffers "a" "b" ⟨"b", "data:image/x"⟩
     ⟨"b", "data:video/y"⟩ (by decide) (by decide) (by decide) (by decide)
     (by decide) (by decide)⟩


/-- Filtering an id out of a list leaves a list not containing it. -/
theorem contains_filter_self (l : List String) (sid : String) :
    (l.filter (fun x => !(x == sid))).contains sid = false := by
  cases hc2 : (l.filter (fun x => !(x == sid))).contains sid
  · rfl
  · have hm := List.elem_iff.mp hc2
    have h2 := (List.mem_filter.mp hm).2
    simp at h2

/-- The partner entry of `sid`, when present, is truthy.  This holds in
every reachable state (`FullInv`), and is the precondition under which the
teardown handlers fully clear the registry entry. -/
def partnerOk (st : ServerState) (sid : String) : Bool :=
  match mget st.partners sid with
  | some q => !strFalsy q
  | none => true

theorem breakPair_partners_self (st : ServerState) (sid : String)
    (hpo : partnerOk st sid = true) :
    mget (breakPair st sid).1.partners sid = none := by
  unfold partnerOk at hpo
  unfold breakPair
  cases hg : mget st.partners sid with
  | none => exact hg
  | some p =>
    rw [hg] at hpo
    have hpf : strFalsy p = false := by simpa using hpo
    dsimp only
    rw [if_neg (neT hpf)]
    dsimp only
    rw [mget_unpair]
    simp

theorem breakPair_eq_none (st : ServerState) (sid : String)
    (hg : mget st.partners sid = none) : breakPair st sid = (st, []) := by
  unfold breakPair
  rw [hg]

theorem breakPair_eq_some (st : ServerState) (sid p : String)
    (hg : mget st.partners sid = some p) (hpf : strFalsy p = false) :
    breakPair st sid =
      ({ st with partners := unpair st.partners sid },
       [⟨p, "partner_left", none⟩]) := by
  unfold breakPair
  rw [hg]
  dsimp only
  rw [if_neg (neT hpf)]

/-- Amended teardown contract of `stop` and `disconnect`: afterwards the id
is in neither the queue nor the partner registry and the former partner
(if any) is notified with "partner_left" exactly once; a second `stop` is
a harmless no-op; `disconnect` removes the pending media offers keyed by
the id, while `stop` leaves all pending offers untouched. -/
def teardownOutcome (st : ServerState) (sid : String) : Prop :=
  ((step st (.stop sid)).1.queue.contains sid = false) ∧
  (mhas (step st (.stop sid)).1.partners sid = false) ∧
  ((step st (.stop sid)).1.pendingPhotos = st.pendingPhotos ∧
   (step st (.stop sid)).1.pendingVideos = st.pendingVideos) ∧
  (∀ p, mget st.partners sid = some p → strFalsy p = false →
     (step st (.stop sid)).2 =
       [⟨p, "partner_left", none⟩, ⟨sid, "stopped", none⟩]) ∧
  (mget st.partners sid = none →
     (step st (.stop sid)).2 = [⟨sid, "stopped", none⟩]) ∧
  (step (step st (.stop sid)).1 (.stop sid) =
     ((step st (.stop sid)).1, [⟨sid, "stopped", none⟩])) ∧
  ((step st (.disconnect sid)).1.queue.contains sid = false) ∧
  (mhas (step st (.disconnect sid)).1.partners sid = false) ∧
  (mget (step st (.disconnect sid)).1.pendingPhotos sid = none ∧
   mget (step st (.disconnect sid)).1.pendingVideos sid = none) ∧
  (∀ p, mget st.partners sid = some p → strFalsy p = false →
     (step st (.disconnect sid)).2 = [⟨p, "partner_left", none⟩]) ∧
  (mget st.partners sid = none → (step st (.disconnect sid)).2 = [])

/-- C6 (amended): after `stop` (for a consented connection) or `disconnect`
the id appears in neither the matching queue nor the partner registry and
the former partner, if any, is notified with "partner_left" exactly once;
the teardown is idempotent; pending media offers keyed by the id are
removed by `disconnect` but NOT by `stop` (the original claim, which said
stop also removes them, is refuted by `c6_stop_keeps_offers_cx`). -/
theorem c6_teardown_contract (st : ServerState) (sid : String)
    (hc : st.connected.contains sid = true)
    (ha : st.agreed.contains sid = true)
    (hpo : partnerOk st sid = true) : teardownOutcome st sid := by
  have hstop : step st (.stop sid) = stopStep st sid := by
    simp only [step]
    rw [if_pos hc]
  have hdisc : step st (.disconnect sid) = disconnectCleanup st sid := by
    simp only [step]
    rw [if_pos hc]
  obtain ⟨hbq, hbc, hba, hbp4, hbp5⟩ := breakPair_rest st sid
  have hself := breakPair_partners_self st sid hpo
  have hss : stopStep st sid =
      ({ (breakPair st sid).1 with
          queue := (breakPair st sid).1.queue.filter (fun x => !(x == sid)) },
       (breakPair st sid).2 ++ [⟨sid, "stopped", none⟩]) := by
    unfold stopStep
    simp only [ha, Bool.not_true, Bool.false_eq_true, if_false]
  have hds : disconnectCleanup st sid =
      ({ (breakPair st sid).1 with
          queue := (breakPair st sid).1.queue.filter (fun x => !(x == sid)),
          pendingPhotos := mdel (breakPair st sid).1.pendingPhotos sid,
          pendingVideos := mdel (breakPair st sid).1.pendingVideos sid,
          identBySocket := mdel (breakPair st sid).1.identBySocket sid,
          connected :=
            (breakPair st sid).1.connected.filter (fun x => !(x == sid)) },
       (breakPair st sid).2) := by
    unfold disconnectCleanup
    rfl
  refine ⟨?_, ?_, ?_, ?_, ?_, ?_, ?_, ?_, ?_, ?_, ?_⟩
  · rw [hstop, hss]
    exact contains_filter_self _ _
  · rw [hstop, hss, mhas_eq_isSome]
    dsimp only
    rw [hself]
    rfl
  · rw [hstop, hss]
    exact ⟨hbp4, hbp5⟩
  · intro p hg hpf
    rw [hstop, hss, breakPair_eq_some st sid p hg hpf]
    rfl
  · intro hg
    rw [hstop, hss, breakPair_eq_none st sid hg]
    rfl
  · -- second stop is a no-op apart from the "stopped" notice
    rw [hstop, hss]
    have hc2 : ({ (breakPair st sid).1 with
        queue := (breakPair st sid).1.queue.filter
          (fun x => !(x == sid)) } : ServerState).connected.contains sid
        = true := by
      dsimp only
      rw [hbc]
      exact hc
    have ha2 : ({ (breakPair st sid).1 with
        queue := (breakPair st sid).1.queue.filter
          (fun x => !(x == sid)) } : ServerState).agreed.contains sid
        = true := by
      dsimp only
      rw [hba]
      exact ha
    have hg2 : mget ({ (breakPair st sid).1 with
        queue := (breakPair st sid).1.queue.filter
          (fun x => !(x == sid)) } : ServerState).partners sid = none := hself
    simp only [step]
    rw [if_pos hc2]
    unfold stopStep
    simp only [ha2, Bool.not_true, Bool.false_eq_true, if_false]
    rw [breakPair_eq_none _ sid hg2]
    dsimp only
    rw [List.filter_filter]
    have hfe : (fun a => ((!(a == sid)) && !(a == sid) : Bool)) =
        (fun a => (!(a == sid) : Bool)) := by
      funext a
      exact Bool.and_self _
    rw [hfe]
    rfl
  · rw [hdisc, hds]
    exact contains_filter_self _ _
  · rw [hdisc, hds, mhas_eq_isSome]
    dsimp only
    rw [hself]
    rfl
  · rw [hdisc, hds]
    constructor
    · dsimp only
      rw [mget_mdel]
      simp
    · dsimp only
      rw [mget_mdel]
      simp
  · intro p hg hpf
    rw [hdisc, hds, breakPair_eq_some st sid p hg hpf]
  · intro hg
    rw [hdisc, hds, breakPair_eq_none st sid hg]

theorem c6_teardown_contract_witness :
    stPaired.connected.contains "a" = true ∧
    stPaired.agreed.contains "a" = true ∧
    partnerOk stPaired "a" = true ∧
    teardownOutcome stPaired "a" :=
  ⟨by decide, by decide, by decide,
   c6_teardown_contract stPaired "a" (by decide) (by decide) (by decide)⟩

/-- C6 counterexample: in the reachable state `stOffers` the consented
connection "a" has just been the subject of `stop`: it is out of the queue
and the partner registry, yet the pending photo and video offers keyed by
"a" are still stored — refuting the claim that after `stop` "any pending
media offers keyed by that id as receiver are removed". -/
theorem c6_stop_keeps_offers_cx :
    stOffers.queue.contains "a" = false ∧
    mhas stOffers.partners "a" = false ∧
    stOffers.agreed.contains "a" = true ∧
    mget stOffers.pendingPhotos "a" = some ⟨"b", "data:image/x"⟩ ∧
    mget stOffers.pendingVideos "a" = some ⟨"b", "data:video/y"⟩ := by
  decide


/-- Amended `next` contract: `next` tears the pairing and queue membership
down like `stop`, then emits "searching" and a "find" event *to the
client* (prompting it to re-initiate matching); on the server's own state
the id is neither queued nor paired after `next`. -/
def nextOutcome (st : ServerState) (sid : String) : Prop :=
  (mhas (step st (.next sid)).1.partners sid = false) ∧
  ((step st (.next sid)).1.queue.contains sid = false) ∧
  (∀ p, mget st.partners sid = some p → strFalsy p = false →
     (step st (.next sid)).2 =
       [⟨p, "partner_left", none⟩, ⟨sid, "searching", none⟩,
        ⟨sid, "find", none⟩]) ∧
  (mget st.partners sid = none →
     (step st (.next sid)).2 =
       [⟨sid, "searching", none⟩, ⟨sid, "find", none⟩])

/-- C9 (amended): for a consented connection, `next` tears down the current
pairing and queue membership as `stop` does, and then emits "searching"
followed by a "find" event addressed to the caller's client; the server
does not re-run its own find handler, so after `next` the id is neither
queued nor paired in the server state (the original claim, which said the
id is again queued or paired, is refuted by `c9_next_not_requeued_cx`). -/
theorem c9_next_teardown_only (st : ServerState) (sid : String)
    (hc : st.connected.contains sid = true)
    (ha : st.agreed.contains sid = true)
    (hpo : partnerOk st sid = true) : nextOutcome st sid := by
  have hnext : step st (.next sid) = nextStep st sid := by
    simp only [step]
    rw [if_pos hc]
  have hself := breakPair_partners_self st sid hpo
  have hns : nextStep st sid =
      ({ (breakPair st sid).1 with
          queue := (breakPair st sid).1.queue.filter (fun x => !(x == sid)) },
       (breakPair st sid).2 ++
         [⟨sid, "searching", none⟩, ⟨sid, "find", none⟩]) := by
    unfold nextStep
    simp only [ha, Bool.not_true, Bool.false_eq_true, if_false]
  refine ⟨?_, ?_, ?_, ?_⟩
  · rw [hnext, hns, mhas_eq_isSome]
    dsimp only
    rw [hself]
    rfl
  · rw [hnext, hns]
    exact contains_filter_self _ _
  · intro p hg hpf
    rw [hnext, hns, breakPair_eq_some st sid p hg hpf]
    rfl
  · intro hg
    rw [hnext, hns, breakPair_eq_none st sid hg]
    rfl

theorem c9_next_teardown_only_witness :
    stPaired.connected.contains "a" = true ∧
    stPaired.agreed.contains "a" = true ∧
    partnerOk stPaired "a" = true ∧
    nextOutcome stPaired "a" :=
  ⟨by decide, by decide, by decide,
   c9_next_teardown_only stPaired "a" (by decide) (by decide) (by decide)⟩

/-- The state after a consented, queued connection "a" sends `next`. -/
def stNexted : ServerState :=
  run initState [.connect "a" "i" 0, .agree "a", .find "a", .next "a"]

/-- C9 counterexample: consented connection "a" was queued (after `find`)
and then sent `next`; afterwards it is still connected and consented but
is neither in the matching queue nor in the partner registry, refuting
"after next is processed the connection id is again in one of
{queued, paired} on the server's state".  (The handler merely emits a
"find" event to the client; `socket.emit` does not invoke the server's own
find handler.) -/
theorem c9_next_not_requeued_cx :
    stNexted.connected.contains "a" = true ∧
    stNexted.agreed.contains "a" = true ∧
    mhas stNexted.partners "a" = false ∧
    stNexted.queue.contains "a" = false := by decide


theorem contains_insert_self (l : List String) (sid : String) :
    (if l.contains sid then l else l ++ [sid]).contains sid = true := by
  by_cases hcl : l.contains sid = true
  · rw [if_pos hcl]
    exact hcl
  · rw [if_neg hcl]
    exact List.elem_iff.mpr (List.mem_append_right l (by simp))

/-- Amended connect contract: the identity mapping is registered first;
then the ban check runs before consent is touched.  An unexpired ban emits
"banned" and closes the connection with no consent state established (but
with the identity mapping already written); an expired ban entry is purged
by that check and the connection proceeds normally. -/
def connectOutcome (st : ServerState) (sid ident : String)
    (now u : Nat) : Prop :=
  (now < u →
     (step st (.connect sid ident now)).2 = [⟨sid, "banned", none⟩] ∧
     mget (step st (.connect sid ident now)).1.identBySocket sid =
       some ident ∧
     (step st (.connect sid ident now)).1.connected.contains sid = false ∧
     (step st (.connect sid ident now)).1.agreed = st.agreed) ∧
  (u ≤ now → ¬ u = 0 →
     mget (step st (.connect sid ident now)).1.tempBans ident = none ∧
     (step st (.connect sid ident now)).2 = [⟨sid, "need_agree", none⟩] ∧
     (step st (.connect sid ident now)).1.connected.contains sid = true ∧
     (step st (.connect sid ident now)).1.agreed.contains sid = false)

/-- C5 (amended): on connect, the identity mapping is registered *before*
the ban check (the original claim's "before the identity mapping is
registered" is refuted by `c5_ident_registered_cx`); the check runs before
consent is reset: an unexpired ban emits "banned" and forcibly closes the
connection with no consent established, while an expired entry is lazily
purged on that check and the connection proceeds normally. -/
theorem c5_connect_ban_check (st : ServerState) (sid ident : String)
    (now u : Nat) (hban : mget st.tempBans ident = some u) :
    connectOutcome st sid ident now u := by
  have hsc : step st (.connect sid ident now) =
      connectStep st sid ident now := rfl
  unfold connectOutcome
  rw [hsc]
  constructor
  · intro hlt
    have hb : isTemporarilyBanned st.tempBans ident now =
        (true, st.tempBans) := by
      unfold isTemporarilyBanned
      rw [hban]
      simp only [Option.getD_some]
      rw [if_pos hlt]
    have he : connectStep st sid ident now =
        ({ st with connected := (if st.connected.contains sid then st.connected else st.connected ++ [sid]).filter (fun x => !(x == sid)), identBySocket := mset st.identBySocket sid ident, tempBans := st.tempBans },
         [⟨sid, "banned", none⟩]) := by
      unfold connectStep
      dsimp only
      rw [hb]
      rfl
    rw [he]
    refine ⟨rfl, ?_, ?_, rfl⟩
    · exact mget_mset_self _ _ _
    · exact contains_filter_self _ _
  · intro hge hne
    have hb : isTemporarilyBanned st.tempBans ident now =
        (false, mdel st.tempBans ident) := by
      unfold isTemporarilyBanned
      rw [hban]
      simp only [Option.getD_some]
      rw [if_neg (by omega), if_pos hne]
    have he : connectStep st sid ident now =
        ({ st with connected := (if st.connected.contains sid then st.connected else st.connected ++ [sid]), identBySocket := mset st.identBySocket sid ident, tempBans := mdel st.tempBans ident, agreed := st.agreed.filter (fun x => !(x == sid)) },
         [⟨sid, "need_agree", none⟩]) := by
      unfold connectStep
      dsimp only
      rw [hb]
      rfl
    rw [he]
    refine ⟨?_, rfl, ?_, ?_⟩
    · show mget (mdel st.tempBans ident) ident = none
      rw [mget_mdel]
      simp
    · exact contains_insert_self _ _
    · exact contains_filter_self _ _

/-- Ten distinct reporters (each pairing with target "t" of identity "T"
and then reporting) drive the target identity to a temporary ban. -/
def banTrace : List Ev :=
  [.connect "t" "T" 0, .agree "t"] ++
  (List.range 10).flatMap (fun i =>
    let r := String.mk ('r' :: (Nat.toDigits 10 i))
    let ri := String.mk ('R' :: (Nat.toDigits 10 i))
    [.connect r ri 0, .agree r, .find "t", .find r, .report r 100])

/-- The reachable state with identity "T" banned until 100 + 24h. -/
def stBanned : ServerState := run initState banTrace

set_option maxRecDepth 80000 in
/-- C5 counterexample: identity "T" has an unexpired ban (set by ten
distinct reports); a fresh connection "t2" with that identity receives the
"banned" notice and is closed, yet its identity mapping *was* registered —
refuting "the connection is forcibly closed before ... the identity
mapping is registered". -/
theorem c5_ident_registered_cx :
    mget stBanned.tempBans "T" = some (100 + BAN_MS) ∧
    (step stBanned (.connect "t2" "T" 500)).2 = [⟨"t2", "banned", none⟩] ∧
    mget (step stBanned
      (.connect "t2" "T" 500)).1.identBySocket "t2" = some "T" ∧
    (step stBanned
      (.connect "t2" "T" 500)).1.connected.contains "t2" = false := by
  decide

set_option maxRecDepth 80000 in
theorem c5_connect_ban_check_witness :
    mget stBanned.tempBans "T" = some (100 + BAN_MS) ∧
    connectOutcome stBanned "t2" "T" 500 (100 + BAN_MS) :=
  ⟨by decide,
   c5_connect_ban_check stBanned "t2" "T" 500 (100 + BAN_MS) (by decide)⟩

end AnonChat
